import Mathlib

/-!
Verification development for `opendevin/sandbox/sandbox.py`.

Byte strings are modelled as `List Nat`, character strings as `List Char`.
The platform-dependent `sys.byteorder` is modelled by an explicit
`ByteOrder` parameter.
-/

set_option autoImplicit false

/-- The two possible values of `sys.byteorder`. -/
inductive ByteOrder where
  | little
  | big

/-- The check `msg_type in [b"\x00", b"\x01", b"\x02", b"\x03"]`. -/
def validTag (b : Nat) : Bool :=
  b == 0 || b == 1 || b == 2 || b == 3

/-- Python `int.from_bytes(bs, byteorder)` for a list of bytes. -/
def intFromBytes (bo : ByteOrder) (bs : List Nat) : Nat :=
  match bo with
  | .little => bs.foldr (fun b acc => b + 256 * acc) 0
  | .big => bs.foldl (fun acc b => 256 * acc + b) 0

/-- The loop body of `BackgroundCommand.parse_sandbox_exec_output`, written as
structural recursion on a fuel bound so that it is executable by `decide`/`rfl`.
The Python loop index `i` is represented by recursing on the still-unscanned
suffix `logs[i:]`; each iteration consumes at least one byte, so a fuel equal
to the length of the buffer suffices. -/
def parseGo (bo : ByteOrder) : Nat → List Nat → List Nat × List Nat
  | 0, _ => ([], [])
  | _ + 1, [] => ([], [])
  | fuel + 1, b :: rest =>
    if (b :: rest).length < 8 then
      if validTag b then ([], b :: rest) else ([], [])
    else
      if validTag b && (((b :: rest).drop 1).take 3 == [0, 0, 0]) then
        let msgLength := intFromBytes bo (((b :: rest).drop 4).take 4)
        let r := parseGo bo fuel ((b :: rest).drop (8 + msgLength))
        (((b :: rest).drop 8).take msgLength ++ r.1, r.2)
      else
        let r := parseGo bo fuel rest
        (b :: r.1, r.2)

/-- `BackgroundCommand.parse_sandbox_exec_output(logs)`: returns the pair
`(res, tail)` of decoded output and deferred tail. -/
def parse_sandbox_exec_output (bo : ByteOrder) (logs : List Nat) : List Nat × List Nat :=
  parseGo bo logs.length logs

/-- Threading of `decode` over successive reads: each chunk of newly read
bytes is parsed together with the tail left over from the previous parse, as
in the loop body of `BackgroundCommand.read_logs`. -/
def feedChunks (bo : ByteOrder) (chunks : List (List Nat)) : List Nat × List Nat :=
  chunks.foldl
    (fun acc c =>
      let r := parse_sandbox_exec_output bo (acc.2 ++ c)
      (acc.1 ++ r.1, r.2))
    ([], [])

/-- `BackgroundCommand.read_logs`, at the byte level: the socket reads of one
call are the list `chunks`; the function accumulates decoded chunks, threading
`last_remains` through the loop, and finally returns `logs + last_remains`.
Both `logs` and `last_remains` are local variables of the call: nothing is
persisted across calls. -/
def BackgroundCommand.read_logs (bo : ByteOrder) (chunks : List (List Nat)) : List Nat :=
  let r := feedChunks bo chunks
  r.1 ++ r.2

/-- Python `s.startswith(pat)` on explicit character lists. -/
def leadsWith : List Char → List Char → Bool
  | [], _ => true
  | _ :: _, [] => false
  | a :: as, b :: bs => a == b && leadsWith as bs

/-- Python's substring test `pat in s`. -/
def occursIn (pat : List Char) : List Char → Bool
  | [] => leadsWith pat []
  | c :: rest => leadsWith pat (c :: rest) || occursIn pat rest

/-- Helper for `str.split()`: `cur` is the current field, reversed. -/
def splitWsAux : List Char → List Char → List (List Char)
  | [], cur => if cur.isEmpty then [] else [cur.reverse]
  | c :: rest, cur =>
    if c == Char.ofNat 32 then
      if cur.isEmpty then splitWsAux rest [] else cur.reverse :: splitWsAux rest []
    else splitWsAux rest (c :: cur)

/-- Python `line.split()`: split on whitespace runs, dropping empty fields
(the lines fed to it come from `splitlines()`, so the only whitespace left is
the space character). -/
def splitWs (s : List Char) : List (List Char) :=
  splitWsAux s []

/-- Python `" ".join(parts)`. -/
def joinSpace : List (List Char) → List Char
  | [] => []
  | [x] => x
  | x :: y :: xs => x ++ (Char.ofNat 32 :: joinSpace (y :: xs))

/-- `SandboxInteractive.get_exec_cmd`: the resolved exec command vector,
depending on the `RUN_AS_DEVIN` configuration toggle. -/
def SandboxInteractive.get_exec_cmd (runAsDevin : Bool) (cmd : List Char) : List (List Char) :=
  if runAsDevin then ["su".toList, "devin".toList, "-c".toList, cmd]
  else ["/bin/bash".toList, "-c".toList, cmd]

/-- `SandboxInteractive.get_pid`: scan the `ps aux` lines for the first one
containing the space-joined resolved command, and return its second
whitespace-separated column.  A matched line always has at least two fields,
because the resolved command itself contains a space between nonempty words,
so the `[1]?` index is `some` whenever a line matched. -/
def SandboxInteractive.get_pid (runAsDevin : Bool) (cmd : List Char)
    (processes : List (List Char)) : Option (List Char) :=
  let resolved := joinSpace (SandboxInteractive.get_exec_cmd runAsDevin cmd)
  match processes.find? (fun line => occursIn resolved line) with
  | none => none
  | some line => (splitWs line)[1]?

/-- The f-string `Command: "{cmd}" timed out`. -/
def SandboxInteractive.timed_out_msg (cmd : List Char) : List Char :=
  "Command: \"".toList ++ cmd ++ "\" timed out".toList

/-- The `concurrent.futures.TimeoutError` handler of
`SandboxInteractive.execute`: discover the pid, issue `kill -9 {pid}` only
when one was found, and return `(-1, timed-out message)` as a normal value
(never an exception).  The first component records the kill execs issued. -/
def SandboxInteractive.execute_on_timeout (runAsDevin : Bool) (cmd : List Char)
    (processes : List (List Char)) : List (List Char) × Int × List Char :=
  match SandboxInteractive.get_pid runAsDevin cmd processes with
  | some pid => (["kill -9 ".toList ++ pid], -1, SandboxInteractive.timed_out_msg cmd)
  | none => ([], -1, SandboxInteractive.timed_out_msg cmd)

/-- A `BackgroundCommand` registry entry: id, submitted command and the pid
discovered at registration time (the live socket handle is not modelled). -/
structure BackgroundCommand where
  id : Nat
  command : List Char
  pid : Option (List Char)

/-- The mutable state of `SandboxInteractive`: the `closed` flag, the id
counter and the registry dict `background_commands`.  The dict is modelled as
an association list; its keys are unique because only
`execute_in_background` inserts, always under a fresh counter value. -/
structure SandboxState where
  closed : Bool
  cur_background_id : Nat
  background_commands : List (Nat × BackgroundCommand)

/-- The class-attribute initial state: `closed = False`,
`cur_background_id = 0`, empty dict. -/
def SandboxInteractive.initialState : SandboxState :=
  { closed := false, cur_background_id := 0, background_commands := [] }

/-- Observable effects of a successful `kill_background`. -/
structure KillEffects where
  killCmds : List (List Char)
  outputClosed : Bool

/-- The effects `kill_background` produces for an entry: a `kill -9` exec
only when a pid is stored, and the output stream always closed. -/
def killEffectsOf (bg : BackgroundCommand) : KillEffects :=
  let kills : List (List Char) :=
    match bg.pid with
    | some p => ["kill -9 ".toList ++ p]
    | none => []
  { killCmds := kills, outputClosed := true }

/-- `background_commands.pop(id)`: since dict keys are unique, removing the
key is filtering it out of the association list. -/
def removeCmd (s : SandboxState) (id : Nat) : SandboxState :=
  { s with background_commands := s.background_commands.filter (fun e => e.1 != id) }

/-- `SandboxInteractive.read_logs(id)`: raises
`ValueError("Invalid background command id")` for an unknown id, otherwise
dispatches to the entry's own log reader (the entry is returned here). -/
def SandboxInteractive.read_logs (s : SandboxState) (id : Nat) :
    Except String BackgroundCommand :=
  match s.background_commands.lookup id with
  | none => Except.error "Invalid background command id"
  | some bg => Except.ok bg

/-- `SandboxInteractive.kill_background(id)`: rejects unknown ids; otherwise
issues the kill effects, closes the output stream, pops the entry and returns
it. -/
def SandboxInteractive.kill_background (s : SandboxState) (id : Nat) :
    Except String (KillEffects × BackgroundCommand × SandboxState) :=
  match s.background_commands.lookup id with
  | none => Except.error "Invalid background command id"
  | some bg => Except.ok (killEffectsOf bg, bg, removeCmd s id)

/-- `SandboxInteractive.execute_in_background`: builds the entry under the
current counter value, stores it in the dict and increments the counter.  The
discovered pid is passed in, as the process listing is external. -/
def SandboxInteractive.execute_in_background (s : SandboxState) (cmd : List Char)
    (pid : Option (List Char)) : BackgroundCommand × SandboxState :=
  let bg : BackgroundCommand := { id := s.cur_background_id, command := cmd, pid := pid }
  (bg,
   { s with
     background_commands := (bg.id, bg) :: s.background_commands,
     cur_background_id := s.cur_background_id + 1 })

/-- Modelled from the spec: the `cleanup` method that
`atexit.register(self.cleanup)` in `SandboxInteractive.__init__` refers to is
absent from the source file.  Per spec section 4.4, `shutdown()` is
idempotent: on first invocation it terminates every still-registered command
(ignoring individual termination errors, so each is attempted) and marks the
registry closed; later invocations are no-ops.  The first component returns
the ids of the commands it terminated. -/
def SandboxInteractive.cleanup (s : SandboxState) : List Nat × SandboxState :=
  if s.closed then ([], s)
  else
    (s.background_commands.map (fun e => e.1),
     { s with closed := true, background_commands := [] })

/-- The process-exit hooks registered by `SandboxInteractive.__init__`:
exactly `atexit.register(self.cleanup)`. -/
def SandboxInteractive.init_atexit_hooks : List String :=
  ["cleanup"]

/-- Registry operations for the id-allocation trace. -/
inductive RegOp where
  | reg (cmd : List Char) (pid : Option (List Char))
  | kill (id : Nat)

/-- Runs a trace of register/kill operations from a state, returning the
final state and the ids assigned to the registrations, in order.  A kill of
an unknown id raises `ValueError` in the source, so it halts the trace. -/
def runOps (s : SandboxState) : List RegOp → SandboxState × List Nat
  | [] => (s, [])
  | RegOp.reg cmd pid :: rest =>
    let r := SandboxInteractive.execute_in_background s cmd pid
    let t := runOps r.2 rest
    (t.1, r.1.id :: t.2)
  | RegOp.kill id :: rest =>
    match SandboxInteractive.kill_background s id with
    | Except.error _ => (s, [])
    | Except.ok r => runOps r.2.2 rest

/-- A trace is valid when every kill targets a currently-registered id. -/
def traceOk (s : SandboxState) : List RegOp → Bool
  | [] => true
  | RegOp.reg cmd pid :: rest =>
    traceOk (SandboxInteractive.execute_in_background s cmd pid).2 rest
  | RegOp.kill id :: rest =>
    match SandboxInteractive.kill_background s id with
    | Except.error _ => false
    | Except.ok r => traceOk r.2.2 rest

/-- Number of registrations in a trace. -/
def countRegs : List RegOp → Nat
  | [] => 0
  | RegOp.reg _ _ :: rest => countRegs rest + 1
  | RegOp.kill _ :: rest => countRegs rest

/-- Concrete registry entry used by witnesses. -/
def bgEx : BackgroundCommand :=
  { id := 0, command := "sleep 1".toList, pid := none }

/-- Concrete one-entry registry state used by witnesses. -/
def sEx : SandboxState :=
  { closed := false, cur_background_id := 1, background_commands := [(0, bgEx)] }

/-- Concrete three-entry registry state used by the shutdown witness. -/
def s3Ex : SandboxState :=
  { closed := false
    cur_background_id := 3
    background_commands :=
      [(2, { id := 2, command := "c".toList, pid := none }),
       (1, { id := 1, command := "b".toList, pid := some "11".toList }),
       (0, { id := 0, command := "a".toList, pid := some "10".toList })] }

/-- Concrete trace with interleaved removals used by the id witness. -/
def opsEx : List RegOp :=
  [RegOp.reg "a".toList none, RegOp.reg "b".toList none, RegOp.kill 0,
   RegOp.reg "c".toList none, RegOp.kill 1]

lemma parseGo_nil (bo : ByteOrder) (f : Nat) : parseGo bo f [] = ([], []) := by
  cases f <;> rfl

lemma parseGo_agree (bo : ByteOrder) :
    ∀ f g logs, logs.length ≤ f → logs.length ≤ g → parseGo bo f logs = parseGo bo g logs := by
  intro f
  induction f with
  | zero =>
    intro g logs h1 _
    have hnil : logs = [] := List.eq_nil_of_length_eq_zero (Nat.le_zero.mp h1)
    subst hnil
    rw [parseGo_nil, parseGo_nil]
  | succ f ih =>
    intro g logs h1 h2
    cases logs with
    | nil => rw [parseGo_nil, parseGo_nil]
    | cons b rest =>
      cases g with
      | zero => simp at h2
      | succ g =>
        simp only [parseGo]
        simp only [List.length_cons] at h1 h2
        by_cases h8 : (b :: rest).length < 8
        · rw [if_pos h8, if_pos h8]
        · rw [if_neg h8, if_neg h8]
          cases hc : validTag b && (((b :: rest).drop 1).take 3 == [0, 0, 0]) with
          | true =>
            simp only [eq_self_iff_true, if_true]
            have hd : ((b :: rest).drop
                (8 + intFromBytes bo (((b :: rest).drop 4).take 4))).length ≤ f := by
              simp only [List.length_drop, List.length_cons]
              omega
            have hd' : ((b :: rest).drop
                (8 + intFromBytes bo (((b :: rest).drop 4).take 4))).length ≤ g := by
              simp only [List.length_drop, List.length_cons]
              omega
            rw [ih _ _ hd hd']
          | false =>
            simp only [Bool.false_eq_true, if_false]
            rw [ih g rest (by omega) (by omega)]

lemma parse_nil (bo : ByteOrder) : parse_sandbox_exec_output bo [] = ([], []) := rfl

/-- One unfolding step of `parse_sandbox_exec_output` on a nonempty buffer,
with the slices rewritten through the leading byte. -/
lemma parse_cons (bo : ByteOrder) (b : Nat) (rest : List Nat) :
    parse_sandbox_exec_output bo (b :: rest) =
      if rest.length + 1 < 8 then
        if validTag b then ([], b :: rest) else ([], [])
      else
        if validTag b && (rest.take 3 == [0, 0, 0]) then
          let msgLength := intFromBytes bo ((rest.drop 3).take 4)
          let r := parse_sandbox_exec_output bo (rest.drop (7 + msgLength))
          ((rest.drop 7).take msgLength ++ r.1, r.2)
        else
          let r := parse_sandbox_exec_output bo rest
          (b :: r.1, r.2) := by
  show parseGo bo (b :: rest).length (b :: rest) = _
  simp only [List.length_cons]
  simp only [parseGo, List.length_cons, List.drop_succ_cons, List.drop_zero]
  by_cases h8 : rest.length + 1 < 8
  · rw [if_pos h8, if_pos h8]
  · rw [if_neg h8, if_neg h8]
    cases hc : validTag b && (rest.take 3 == [0, 0, 0]) with
    | true =>
      simp only [eq_self_iff_true, if_true]
      generalize hm : intFromBytes bo ((rest.drop 3).take 4) = m
      have h8m : 8 + m = (7 + m) + 1 := by omega
      rw [h8m, List.drop_succ_cons]
      have heq : parseGo bo rest.length (rest.drop (7 + m))
          = parse_sandbox_exec_output bo (rest.drop (7 + m)) := by
        show _ = parseGo bo (rest.drop (7 + m)).length _
        apply parseGo_agree
        · simp only [List.length_drop]; omega
        · exact Nat.le_refl _
      rw [heq]
    | false =>
      simp only [Bool.false_eq_true, if_false]
      rfl

/-- A complete valid frame (valid tag, zero padding, length field matching the
payload length in the given byte order) decodes to exactly its payload, with
an empty tail. -/
lemma parse_frame (bo : ByteOrder) (t : Nat) (lb p : List Nat)
    (h1 : validTag t = true) (h2 : lb.length = 4) (h3 : intFromBytes bo lb = p.length) :
    parse_sandbox_exec_output bo (t :: 0 :: 0 :: 0 :: (lb ++ p)) = (p, []) := by
  rw [parse_cons]
  have hlen : (0 :: 0 :: 0 :: (lb ++ p)).length = 7 + p.length := by
    simp [h2]
    omega
  rw [if_neg (by rw [hlen]; omega)]
  rw [if_pos (by simp [h1])]
  simp only [List.drop_succ_cons, List.drop_zero, List.take_succ_cons, List.take_zero]
  rw [List.take_left' h2, List.drop_left' h2, h3, List.take_length]
  have hd : (0 :: 0 :: 0 :: (lb ++ p)).drop (7 + p.length) = [] := by
    rw [← hlen, List.drop_length]
  rw [hd, parse_nil]
  simp

/-- Whether the 8-byte window at the head of `l` is a frame header the code
accepts: at least 8 bytes, a valid stream-type tag, and zero padding. -/
def headerAtList (l : List Nat) : Bool :=
  decide (8 ≤ l.length) && (validTag (l.headD 4) && ((l.drop 1).take 3 == [0, 0, 0]))

/-- Claim C3 (counterexample): a buffer containing no valid frame header does
NOT always decode to itself.  The one-byte buffer `[65]` contains no valid
frame header, yet `parse_sandbox_exec_output` returns empty output (and an
empty tail): the final sub-8-byte remainder whose first byte is not a valid
stream-type tag is silently discarded, not echoed. -/
theorem c3_counterexample :
    parse_sandbox_exec_output .little [65] = ([], [])
    ∧ (∀ i, headerAtList (([65] : List Nat).drop i) = false)
    ∧ ([] : List Nat) ≠ [65] := by
  refine ⟨by decide, ?_, by decide⟩
  intro i
  cases i with
  | zero => decide
  | succ n =>
    have hd : ([65] : List Nat).drop (n + 1) = [] := by
      apply List.drop_eq_nil_of_le
      simp
    rw [hd]
    decide

/-- Claim C3 (amended): scanning a buffer with no valid frame header at any
position, the code emits all but the trailing sub-8-byte remainder verbatim;
the remainder becomes the tail when its first byte is a valid stream-type tag
and is dropped otherwise. -/
theorem c3_no_header_scan (bo : ByteOrder) (logs : List Nat)
    (h : ∀ i, headerAtList (logs.drop i) = false) :
    parse_sandbox_exec_output bo logs =
      (logs.take (logs.length - 7),
       if validTag ((logs.drop (logs.length - 7)).headD 4) then logs.drop (logs.length - 7)
       else []) := by
  induction logs with
  | nil => simp [parse_nil, validTag]
  | cons b rest ih =>
    rw [parse_cons]
    by_cases h8 : rest.length + 1 < 8
    · rw [if_pos h8]
      have hz : (b :: rest).length - 7 = 0 := by simp; omega
      rw [hz]
      simp only [List.take_zero, List.drop_zero, List.headD_cons]
      cases hv : validTag b <;> simp
    · rw [if_neg h8]
      have h0 := h 0
      rw [List.drop_zero] at h0
      have hcond : (validTag b && (rest.take 3 == [0, 0, 0])) = false := by
        have h8' : decide (8 ≤ (b :: rest).length) = true := by
          simp only [List.length_cons]
          rw [decide_eq_true_eq]
          omega
        rw [headerAtList, h8', Bool.true_and, List.headD_cons, List.drop_succ_cons] at h0
        exact h0
      rw [if_neg (by rw [hcond]; exact Bool.false_ne_true)]
      have hrest : ∀ i, headerAtList (rest.drop i) = false := by
        intro i
        have := h (i + 1)
        rwa [List.drop_succ_cons] at this
      rw [ih hrest]
      have harith : (b :: rest).length - 7 = (rest.length - 7) + 1 := by
        simp only [List.length_cons]
        omega
      rw [harith, List.take_succ_cons, List.drop_succ_cons]

/-- Claim C3 (witness for the amended theorem): a 9-byte buffer of printable
ASCII with no valid frame header decodes to its first two bytes; the trailing
7-byte remainder is dropped because its first byte is not a valid tag. -/
theorem c3_no_header_scan_witness :
    (∀ i, headerAtList (([65, 66, 67, 68, 69, 70, 71, 72, 73] : List Nat).drop i) = false)
    ∧ parse_sandbox_exec_output .little [65, 66, 67, 68, 69, 70, 71, 72, 73]
        = (([65, 66, 67, 68, 69, 70, 71, 72, 73] : List Nat).take
            (([65, 66, 67, 68, 69, 70, 71, 72, 73] : List Nat).length - 7),
           if validTag ((([65, 66, 67, 68, 69, 70, 71, 72, 73] : List Nat).drop
               (([65, 66, 67, 68, 69, 70, 71, 72, 73] : List Nat).length - 7)).headD 4)
           then ([65, 66, 67, 68, 69, 70, 71, 72, 73] : List Nat).drop
               (([65, 66, 67, 68, 69, 70, 71, 72, 73] : List Nat).length - 7)
           else []) := by
  have hno : ∀ i, headerAtList (([65, 66, 67, 68, 69, 70, 71, 72, 73] : List Nat).drop i) = false := by
    intro i
    match i with
    | 0 => decide
    | 1 => decide
    | 2 => decide
    | n + 3 =>
      have hd : ([65, 66, 67, 68, 69, 70, 71, 72, 73] : List Nat).drop (n + 3)
          = ([68, 69, 70, 71, 72, 73] : List Nat).drop n := by
        simp only [List.drop_succ_cons]
      rw [hd, headerAtList]
      have hlen : decide (8 ≤ (([68, 69, 70, 71, 72, 73] : List Nat).drop n).length) = false := by
        rw [decide_eq_false_iff_not]
        simp only [List.length_drop]
        simp
        omega
      rw [hlen, Bool.false_and]
  exact ⟨hno, c3_no_header_scan .little _ hno⟩

/-- Claim C1 (code_bug evidence): the demux round-trip fails.  A single valid
frame (type 1, length 8, payload 97..104) split after the header plus four
payload bytes, decoded with the tail threaded through, yields only the first
four payload bytes: the clamped slice `logs[i+8 : i+8+msg_length]` emits the
partial payload, advances the index past bytes never received, and leaves an
empty tail, so the remaining four payload bytes arrive as unframed data and
are discarded as a short invalid remainder. -/
theorem c1_round_trip_loss :
    feedChunks .little [[1, 0, 0, 0, 8, 0, 0, 0, 97, 98, 99, 100], [101, 102, 103, 104]]
      = ([97, 98, 99, 100], [])
    ∧ ([97, 98, 99, 100] : List Nat) ≠ [97, 98, 99, 100, 101, 102, 103, 104] :=
  ⟨by decide, by decide⟩

/-- Claim C2 (code_bug evidence): a valid 8-byte header followed by fewer than
`length` payload bytes is NOT deferred to the tail: the code emits the partial
payload with an empty tail, and feeding a valid frame one byte at a time emits
nothing at all (the payload is lost), instead of emitting exactly the payload
once fully supplied. -/
theorem c2_short_payload_emitted :
    parse_sandbox_exec_output .little [1, 0, 0, 0, 2, 0, 0, 0, 97] = ([97], [])
    ∧ parse_sandbox_exec_output .little [1, 0, 0, 0, 2, 0, 0, 0, 97]
        ≠ ([], [1, 0, 0, 0, 2, 0, 0, 0, 97])
    ∧ feedChunks .little [[1], [0], [0], [0], [2], [0], [0], [0], [97], [98]] = ([], []) :=
  ⟨by decide, by decide, by decide⟩

/-- Claim C9: when decoding a header, byte 0 is the stream type (a valid tag
is required), bytes 1-3 must be exactly zero, and bytes 4-7 are the unsigned
32-bit length in the platform byte order `bo`: a complete frame built that way
decodes to its payload; a window failing the tag-or-padding check is consumed
one byte at a time; and the two byte orders genuinely disagree on a concrete
buffer, so the length decoding is platform-dependent, not fixed-endian. -/
theorem c9_header_format (bo : ByteOrder) (t : Nat) (lb p : List Nat) (b : Nat) (rest : List Nat)
    (h1 : validTag t = true) (h2 : lb.length = 4) (h3 : intFromBytes bo lb = p.length)
    (h4 : 7 ≤ rest.length) (h5 : (validTag b && (rest.take 3 == [0, 0, 0])) = false) :
    parse_sandbox_exec_output bo (t :: 0 :: 0 :: 0 :: (lb ++ p)) = (p, [])
    ∧ parse_sandbox_exec_output bo (b :: rest)
        = (b :: (parse_sandbox_exec_output bo rest).1, (parse_sandbox_exec_output bo rest).2)
    ∧ parse_sandbox_exec_output .little [1, 0, 0, 0, 1, 0, 0, 0, 65, 66]
        ≠ parse_sandbox_exec_output .big [1, 0, 0, 0, 1, 0, 0, 0, 65, 66] := by
  refine ⟨parse_frame bo t lb p h1 h2 h3, ?_, by decide⟩
  rw [parse_cons]
  rw [if_neg (by omega)]
  rw [if_neg (by rw [h5]; exact Bool.false_ne_true)]

/-- Claim C9 (witness): the header-format theorem evaluated at a concrete
frame with tag 0, little-endian length 3 and payload 65,66,67, and a concrete
rejected window starting with byte 9. -/
theorem c9_header_format_witness :
    (validTag 0 = true ∧ ([3, 0, 0, 0] : List Nat).length = 4
      ∧ intFromBytes .little [3, 0, 0, 0] = ([65, 66, 67] : List Nat).length
      ∧ 7 ≤ ([1, 2, 3, 4, 5, 6, 7] : List Nat).length
      ∧ (validTag 9 && (([1, 2, 3, 4, 5, 6, 7] : List Nat).take 3 == [0, 0, 0])) = false)
    ∧ (parse_sandbox_exec_output .little (0 :: 0 :: 0 :: 0 :: ([3, 0, 0, 0] ++ [65, 66, 67]))
          = ([65, 66, 67], [])
        ∧ parse_sandbox_exec_output .little (9 :: [1, 2, 3, 4, 5, 6, 7])
            = (9 :: (parse_sandbox_exec_output .little [1, 2, 3, 4, 5, 6, 7]).1,
               (parse_sandbox_exec_output .little [1, 2, 3, 4, 5, 6, 7]).2)
        ∧ parse_sandbox_exec_output .little [1, 0, 0, 0, 1, 0, 0, 0, 65, 66]
            ≠ parse_sandbox_exec_output .big [1, 0, 0, 0, 1, 0, 0, 0, 65, 66]) :=
  ⟨⟨by decide, by decide, by decide, by decide, by decide⟩,
   c9_header_format .little 0 [3, 0, 0, 0] [65, 66, 67] 9 [1, 2, 3, 4, 5, 6, 7]
     (by decide) (by decide) (by decide) (by decide) (by decide)⟩

/-- Claim C4 (counterexample): the tail is not withheld across `read_logs`
calls.  A call whose socket data is the four bytes `[1,0,0,0]` — the start of
an incomplete frame header, which `parse_sandbox_exec_output` defers entirely
to the tail — returns those raw bytes as output, because `read_logs` appends
`last_remains` to the decoded output on return and persists nothing. -/
theorem c4_counterexample :
    BackgroundCommand.read_logs .little [[1, 0, 0, 0]] = [1, 0, 0, 0]
    ∧ parse_sandbox_exec_output .little [1, 0, 0, 0] = ([], [1, 0, 0, 0])
    ∧ ([1, 0, 0, 0] : List Nat) ≠ [] :=
  ⟨by decide, by decide, by decide⟩

/-- Claim C4 (amended): within a single `read_logs` call the tail IS threaded
between successive socket reads — a valid frame split anywhere inside its
8-byte header across two reads of the same call is reassembled and decoded to
exactly its payload — but at the end of the call the leftover tail is appended
verbatim to the returned output; no demux state persists across calls. -/
theorem c4_within_call_threading (bo : ByteOrder) (t : Nat) (lb p : List Nat) (k : Nat)
    (chunks : List (List Nat))
    (h1 : validTag t = true) (h2 : lb.length = 4) (h3 : intFromBytes bo lb = p.length)
    (h4 : k < 8) :
    BackgroundCommand.read_logs bo
        [(t :: 0 :: 0 :: 0 :: (lb ++ p)).take k, (t :: 0 :: 0 :: 0 :: (lb ++ p)).drop k] = p
    ∧ BackgroundCommand.read_logs bo chunks
        = (feedChunks bo chunks).1 ++ (feedChunks bo chunks).2 := by
  constructor
  · have hfirst : parse_sandbox_exec_output bo ((t :: 0 :: 0 :: 0 :: (lb ++ p)).take k)
        = ([], (t :: 0 :: 0 :: 0 :: (lb ++ p)).take k) := by
      cases k with
      | zero => simp [parse_nil]
      | succ n =>
        rw [List.take_succ_cons, parse_cons]
        have hlen : ((0 :: 0 :: 0 :: (lb ++ p)).take n).length + 1 < 8 := by
          have hle : ((0 :: 0 :: 0 :: (lb ++ p)).take n).length ≤ n := by
            simp [List.length_take]
          omega
        rw [if_pos hlen, if_pos h1]
    show (feedChunks bo _).1 ++ (feedChunks bo _).2 = p
    simp only [feedChunks, List.foldl_cons, List.foldl_nil, List.nil_append]
    rw [hfirst]
    simp only [List.nil_append, List.append_nil]
    rw [List.take_append_drop, parse_frame bo t lb p h1 h2 h3]
    simp
  · rfl

/-- Claim C4 (witness for the amended theorem): a concrete frame with tag 1,
little-endian length 2 and payload 97,98, split three bytes into the header,
is reassembled within one call; and on the chunk list `[[1,0,0,0]]` the call
output is the decoded output plus the flushed tail. -/
theorem c4_within_call_threading_witness :
    (validTag 1 = true ∧ ([2, 0, 0, 0] : List Nat).length = 4
      ∧ intFromBytes .little [2, 0, 0, 0] = ([97, 98] : List Nat).length ∧ 3 < 8)
    ∧ (BackgroundCommand.read_logs .little
          [(1 :: 0 :: 0 :: 0 :: ([2, 0, 0, 0] ++ [97, 98])).take 3,
           (1 :: 0 :: 0 :: 0 :: ([2, 0, 0, 0] ++ [97, 98])).drop 3] = [97, 98]
        ∧ BackgroundCommand.read_logs .little [[1, 0, 0, 0]]
            = (feedChunks .little [[1, 0, 0, 0]]).1 ++ (feedChunks .little [[1, 0, 0, 0]]).2) :=
  ⟨⟨by decide, by decide, by decide, by decide⟩,
   c4_within_call_threading .little 1 [2, 0, 0, 0] [97, 98] 3 [[1, 0, 0, 0]]
     (by decide) (by decide) (by decide) (by decide)⟩

lemma leadsWith_append (p y : List Char) : leadsWith p (p ++ y) = true := by
  induction p with
  | nil => rfl
  | cons a as ih => simp [leadsWith, ih]

lemma occursIn_of_leadsWith (p s : List Char) (h : leadsWith p s = true) :
    occursIn p s = true := by
  cases s with
  | nil => exact h
  | cons c rest => simp [occursIn, h]

lemma occursIn_append (p x s : List Char) (h : occursIn p s = true) :
    occursIn p (x ++ s) = true := by
  induction x with
  | nil => simpa using h
  | cons c cs ih => simp [occursIn, ih]

lemma lookup_filter_ne (l : List (Nat × BackgroundCommand)) (id : Nat) :
    (l.filter (fun e => e.1 != id)).lookup id = none := by
  induction l with
  | nil => rfl
  | cons kv rest ih =>
    obtain ⟨k, v⟩ := kv
    simp only [List.filter_cons]
    by_cases hk : k = id
    · subst hk
      simp only [bne_self_eq_false, Bool.false_eq_true, if_false]
      exact ih
    · have hcond : ((k, v).1 != id) = true := by
        simpa using hk
      rw [hcond, if_pos rfl]
      have hne : (id == k) = false := by
        simpa using Ne.symm hk
      simp [List.lookup, hne, ih]

/-- Claim C6: on the timeout path of `execute`, when pid discovery succeeds,
exactly one forced-kill exec `kill -9 {pid}` is issued, the pid comes from
the second column of a process-listing line containing the fully-resolved
exec command, and the call returns the normal result
`(-1, Command: "{cmd}" timed out)` whose output contains the submitted
command text — no exception reaches the caller. -/
theorem c6_timeout_kill (runAsDevin : Bool) (cmd : List Char)
    (processes : List (List Char)) (pid : List Char)
    (h : SandboxInteractive.get_pid runAsDevin cmd processes = some pid) :
    SandboxInteractive.execute_on_timeout runAsDevin cmd processes
        = (["kill -9 ".toList ++ pid], -1, SandboxInteractive.timed_out_msg cmd)
    ∧ occursIn cmd (SandboxInteractive.timed_out_msg cmd) = true
    ∧ ∃ line, line ∈ processes
        ∧ occursIn (joinSpace (SandboxInteractive.get_exec_cmd runAsDevin cmd)) line = true
        ∧ (splitWs line)[1]? = some pid := by
  refine ⟨?_, ?_, ?_⟩
  · simp only [SandboxInteractive.execute_on_timeout, h]
  · rw [SandboxInteractive.timed_out_msg, List.append_assoc]
    exact occursIn_append _ _ _ (occursIn_of_leadsWith _ _ (leadsWith_append _ _))
  · simp only [SandboxInteractive.get_pid] at h
    cases hf : processes.find?
        (fun line =>
          occursIn (joinSpace (SandboxInteractive.get_exec_cmd runAsDevin cmd)) line) with
    | none => rw [hf] at h; exact absurd h (by simp)
    | some line =>
      rw [hf] at h
      refine ⟨line, List.mem_of_find?_eq_some hf, ?_, h⟩
      have hp := List.find?_some hf
      simpa using hp

/-- Claim C6 (witness): the timeout-kill theorem evaluated at `cmd = ls`,
`RUN_AS_DEVIN = false`, and a process listing whose only line contains
`/bin/bash -c ls` with pid column `42`. -/
theorem c6_timeout_kill_witness :
    SandboxInteractive.get_pid false "ls".toList ["root 42 0.0 /bin/bash -c ls".toList]
        = some "42".toList
    ∧ (SandboxInteractive.execute_on_timeout false "ls".toList
          ["root 42 0.0 /bin/bash -c ls".toList]
          = (["kill -9 ".toList ++ "42".toList], -1,
             SandboxInteractive.timed_out_msg "ls".toList)
        ∧ occursIn "ls".toList (SandboxInteractive.timed_out_msg "ls".toList) = true
        ∧ ∃ line, line ∈ ["root 42 0.0 /bin/bash -c ls".toList]
            ∧ occursIn (joinSpace (SandboxInteractive.get_exec_cmd false "ls".toList)) line
                = true
            ∧ (splitWs line)[1]? = some "42".toList) :=
  ⟨by decide,
   c6_timeout_kill false "ls".toList ["root 42 0.0 /bin/bash -c ls".toList] "42".toList
     (by decide)⟩

/-- Claim C10: when pid discovery returns `None` on the timeout path, no kill
exec is issued and the call still returns the `(-1, timed out)` result; and
`kill_background` on an entry whose pid is `None` issues no kill signal but
still closes the output stream and removes the registry entry. -/
theorem c10_none_pid_paths (runAsDevin : Bool) (cmd : List Char)
    (processes : List (List Char)) (s : SandboxState) (id : Nat) (bg : BackgroundCommand)
    (hp : SandboxInteractive.get_pid runAsDevin cmd processes = none)
    (hl : s.background_commands.lookup id = some bg)
    (hbp : bg.pid = none) :
    SandboxInteractive.execute_on_timeout runAsDevin cmd processes
        = ([], -1, SandboxInteractive.timed_out_msg cmd)
    ∧ SandboxInteractive.kill_background s id
        = Except.ok ({ killCmds := [], outputClosed := true }, bg, removeCmd s id)
    ∧ (removeCmd s id).background_commands.lookup id = none := by
  refine ⟨?_, ?_, ?_⟩
  · simp only [SandboxInteractive.execute_on_timeout, hp]
  · simp only [SandboxInteractive.kill_background, hl, killEffectsOf, hbp]
  · exact lookup_filter_ne _ _

/-- Claim C10 (witness): evaluated with an empty process listing (no match)
and the one-entry registry `sEx`, whose entry 0 has no stored pid. -/
theorem c10_none_pid_paths_witness :
    SandboxInteractive.get_pid true "x".toList [] = none
    ∧ sEx.background_commands.lookup 0 = some bgEx
    ∧ bgEx.pid = none
    ∧ (SandboxInteractive.execute_on_timeout true "x".toList []
          = ([], -1, SandboxInteractive.timed_out_msg "x".toList)
        ∧ SandboxInteractive.kill_background sEx 0
            = Except.ok ({ killCmds := [], outputClosed := true }, bgEx, removeCmd sEx 0)
        ∧ (removeCmd sEx 0).background_commands.lookup 0 = none) :=
  ⟨rfl, rfl, rfl, c10_none_pid_paths true "x".toList [] sEx 0 bgEx rfl rfl rfl⟩

/-- Claim C7: `read_logs` and `kill_background` on an id absent from the
registry fail with the `Invalid background command id` error rather than
being ignored; and killing a registered id removes its entry, so both
operations on that id subsequently fail with the same error. -/
theorem c7_invalid_handle (s0 : SandboxState) (id0 : Nat)
    (h0 : s0.background_commands.lookup id0 = none)
    (s : SandboxState) (id : Nat) (bg : BackgroundCommand)
    (hbg : s.background_commands.lookup id = some bg) :
    SandboxInteractive.read_logs s0 id0 = Except.error "Invalid background command id"
    ∧ SandboxInteractive.kill_background s0 id0
        = Except.error "Invalid background command id"
    ∧ SandboxInteractive.kill_background s id
        = Except.ok (killEffectsOf bg, bg, removeCmd s id)
    ∧ SandboxInteractive.read_logs (removeCmd s id) id
        = Except.error "Invalid background command id"
    ∧ SandboxInteractive.kill_background (removeCmd s id) id
        = Except.error "Invalid background command id" := by
  refine ⟨?_, ?_, ?_, ?_, ?_⟩
  · simp only [SandboxInteractive.read_logs, h0]
  · simp only [SandboxInteractive.kill_background, h0]
  · simp only [SandboxInteractive.kill_background, hbg]
  · simp only [SandboxInteractive.read_logs, removeCmd, lookup_filter_ne]
  · simp only [SandboxInteractive.kill_background, removeCmd, lookup_filter_ne]

/-- Claim C7 (witness): evaluated on the empty initial registry with id 3,
and on the one-entry registry `sEx` with its valid id 0. -/
theorem c7_invalid_handle_witness :
    SandboxInteractive.initialState.background_commands.lookup 3 = none
    ∧ sEx.background_commands.lookup 0 = some bgEx
    ∧ (SandboxInteractive.read_logs SandboxInteractive.initialState 3
          = Except.error "Invalid background command id"
        ∧ SandboxInteractive.kill_background SandboxInteractive.initialState 3
            = Except.error "Invalid background command id"
        ∧ SandboxInteractive.kill_background sEx 0
            = Except.ok (killEffectsOf bgEx, bgEx, removeCmd sEx 0)
        ∧ SandboxInteractive.read_logs (removeCmd sEx 0) 0
            = Except.error "Invalid background command id"
        ∧ SandboxInteractive.kill_background (removeCmd sEx 0) 0
            = Except.error "Invalid background command id") :=
  ⟨rfl, rfl, c7_invalid_handle SandboxInteractive.initialState 3 rfl sEx 0 bgEx rfl⟩

/-- Claim C5: `cleanup` is registered as a process-exit hook by `__init__`,
is explicitly callable, and on a registry that is not yet closed it
terminates exactly the still-registered commands (each attempted, errors
ignored), empties the registry, marks it closed, and a second invocation is a
no-op.  The body of `cleanup` is modelled from the spec, as the method is
absent from the source file (see its doc comment). -/
theorem c5_shutdown (s : SandboxState) (h : s.closed = false) :
    "cleanup" ∈ SandboxInteractive.init_atexit_hooks
    ∧ (SandboxInteractive.cleanup s).1 = s.background_commands.map (fun e => e.1)
    ∧ ((SandboxInteractive.cleanup s).2).background_commands = []
    ∧ ((SandboxInteractive.cleanup s).2).closed = true
    ∧ SandboxInteractive.cleanup ((SandboxInteractive.cleanup s).2)
        = ([], (SandboxInteractive.cleanup s).2) := by
  refine ⟨by simp [SandboxInteractive.init_atexit_hooks], ?_, ?_, ?_, ?_⟩
  all_goals simp [SandboxInteractive.cleanup, h]

/-- Claim C5 (witness): shutdown of the three-command registry `s3Ex`
terminates ids 2, 1, 0, empties and closes the registry, and is idempotent. -/
theorem c5_shutdown_witness :
    s3Ex.closed = false
    ∧ ("cleanup" ∈ SandboxInteractive.init_atexit_hooks
        ∧ (SandboxInteractive.cleanup s3Ex).1 = s3Ex.background_commands.map (fun e => e.1)
        ∧ ((SandboxInteractive.cleanup s3Ex).2).background_commands = []
        ∧ ((SandboxInteractive.cleanup s3Ex).2).closed = true
        ∧ SandboxInteractive.cleanup ((SandboxInteractive.cleanup s3Ex).2)
            = ([], (SandboxInteractive.cleanup s3Ex).2)) :=
  ⟨rfl, c5_shutdown s3Ex rfl⟩

lemma runOps_ids (ops : List RegOp) :
    ∀ s, (runOps s ops).2 = List.range' s.cur_background_id (runOps s ops).2.length := by
  induction ops with
  | nil => intro s; rfl
  | cons op rest ih =>
    intro s
    cases op with
    | reg cmd pid =>
      show (runOps s (RegOp.reg cmd pid :: rest)).2 = _
      simp only [runOps]
      have hcur : (SandboxInteractive.execute_in_background s cmd pid).2.cur_background_id
          = s.cur_background_id + 1 := rfl
      have hid : (SandboxInteractive.execute_in_background s cmd pid).1.id
          = s.cur_background_id := rfl
      rw [hid]
      have ht := ih (SandboxInteractive.execute_in_background s cmd pid).2
      rw [hcur] at ht
      rw [ht]
      simp [List.range'_succ]
    | kill id =>
      simp only [runOps]
      cases hl : s.background_commands.lookup id with
      | none =>
        simp only [SandboxInteractive.kill_background, hl]
        rfl
      | some bg =>
        simp only [SandboxInteractive.kill_background, hl]
        have ht := ih (removeCmd s id)
        have hcur : (removeCmd s id).cur_background_id = s.cur_background_id := rfl
        rw [hcur] at ht
        exact ht

lemma runOps_count (ops : List RegOp) :
    ∀ s, traceOk s ops = true → (runOps s ops).2.length = countRegs ops := by
  induction ops with
  | nil => intro s _; rfl
  | cons op rest ih =>
    intro s hok
    cases op with
    | reg cmd pid =>
      simp only [runOps, countRegs, List.length_cons]
      simp only [traceOk] at hok
      rw [ih _ hok]
    | kill id =>
      simp only [runOps, countRegs]
      simp only [traceOk] at hok
      cases hl : s.background_commands.lookup id with
      | none =>
        simp only [SandboxInteractive.kill_background, hl] at hok
        exact absurd hok (by simp)
      | some bg =>
        simp only [SandboxInteractive.kill_background, hl] at hok ⊢
        exact ih _ hok

/-- Claim C8: running any trace of registrations and removals from the
initial state yields assigned ids `0, 1, 2, ...` in order — distinct,
strictly increasing, starting at 0, never reused no matter which entries were
removed in between — and a trace whose kills all target registered ids
assigns exactly one id per registration. -/
theorem c8_id_monotonicity (ops : List RegOp) :
    (runOps SandboxInteractive.initialState ops).2
      = List.range (runOps SandboxInteractive.initialState ops).2.length
    ∧ List.Pairwise (· < ·) (runOps SandboxInteractive.initialState ops).2
    ∧ (traceOk SandboxInteractive.initialState ops = true →
        (runOps SandboxInteractive.initialState ops).2.length = countRegs ops) := by
  have h := runOps_ids ops SandboxInteractive.initialState
  have hz : SandboxInteractive.initialState.cur_background_id = 0 := rfl
  rw [hz] at h
  refine ⟨?_, ?_, runOps_count ops _⟩
  · rw [List.range_eq_range']
    exact h
  · rw [h, ← List.range_eq_range']
    exact List.pairwise_lt_range _

/-- Claim C8 (witness): the trace `reg a, reg b, kill 0, reg c, kill 1`
assigns ids 0, 1, 2 — one per registration, strictly increasing from 0,
unaffected by the interleaved removals. -/
theorem c8_id_monotonicity_witness :
    (runOps SandboxInteractive.initialState opsEx).2
        = List.range (runOps SandboxInteractive.initialState opsEx).2.length
    ∧ List.Pairwise (· < ·) (runOps SandboxInteractive.initialState opsEx).2
    ∧ (runOps SandboxInteractive.initialState opsEx).2.length = countRegs opsEx :=
  ⟨(c8_id_monotonicity opsEx).1, (c8_id_monotonicity opsEx).2.1,
   (c8_id_monotonicity opsEx).2.2 (by decide)⟩
